import Mathlib

/-!
Verification of the hyperparameter-search core of the
ticker-upgrade-prediction repository
(src/ticket_upgrade_prediction/hyperparam_pipeline.py).

The embedding models feature tables as lists of rows of rationals,
hyperparameter spaces as association lists whose values are either a
scalar, a Python list of candidates, or a tuple, and the mutable
session state (self.params, self.scores) as an explicit record that is
threaded through the search loop.  Failures that the Python code
surfaces as exceptions (sklearn TypeError on a non-iterable grid value,
random.choice IndexError on an empty sequence, numpy ValueError on an
empty argmax, the unsupported-model ValueError) are modelled with an
Except over an explicit error type; the names of the error constructors
follow the error taxonomy of the specification.
-/

/-- Errors surfaced by the pipeline, named after the error taxonomy of
the specification.  typeErrorGridValue is the sklearn ParameterGrid
TypeError on a non-iterable value, valueErrorNoFeatures the ValueError
sklearn check_array raises when a scaler is fitted on an input with
zero feature columns, indexErrorEmptyChoice the IndexError of
random.choice on an empty sequence, noTrialsRecorded the numpy
ValueError of argmax on an empty sequence, indexError an out-of-range
Python list subscript, unsupportedModelKind the ValueError of
determine_model, and evalFailed any pass-through failure raised while
training, predicting or building metrics for one configuration. -/
inductive PErr where
  | typeErrorGridValue
  | valueErrorNoFeatures
  | indexErrorEmptyChoice
  | noTrialsRecorded
  | indexError
  | unsupportedModelKind
  | evalFailed
  deriving DecidableEq, Repr

/-- Rows of a pandas DataFrame: each row is the list of the cell values
of that row, in column order.  Values are rationals; the real-number
square root inside StandardScaler is abstracted by an explicit
function argument where it occurs. -/
abbrev Frame := List (List ℚ)

/-- Positional row selection, DataFrame.iloc with an integer array:
pandas returns a fresh copy holding the rows listed in the index array,
in that order (out-of-range positions do not occur in KFold output and
are dropped here). -/
def ilocRows (f : Frame) (idx : List Nat) : Frame :=
  idx.filterMap (fun i => f.get? i)

/-- Column selection by a boolean mask, DataFrame.iloc[:, mask]:
keeps, within every row, the cells at the positions where the mask is
true. -/
def selectCols (mask : List Bool) (f : Frame) : Frame :=
  f.map (fun row => ((row.zip mask).filter (fun xb => xb.2)).map (fun xb => xb.1))

/-- Writing a row back through DataFrame.iloc[:, mask] = vals: the
cells at true-mask positions are replaced, in order, by the replacement
values; all other cells are kept. -/
def assignRow : List ℚ → List Bool → List ℚ → List ℚ
  | [], _, _ => []
  | x :: xs, [], repl => x :: assignRow xs [] repl
  | x :: xs, b :: bs, repl =>
    if b then
      match repl with
      | r :: rs => r :: assignRow xs bs rs
      | [] => x :: assignRow xs bs []
    else x :: assignRow xs bs repl

/-- Frame-level masked assignment, one replacement row per frame row. -/
def assignCols (mask : List Bool) (f : Frame) (vals : Frame) : Frame :=
  (f.zip vals).map (fun rv => assignRow rv.1 mask rv.2) ++ f.drop vals.length

/-- Columns of a frame (list transposition restricted to the length of
the first row, which is the shape pandas guarantees for a rectangular
DataFrame). -/
def frameCols (f : Frame) : Frame :=
  match f with
  | [] => []
  | r :: _ => (List.range r.length).map (fun j => f.filterMap (fun row => row.get? j))

/-- Mean of a column, as computed by StandardScaler.fit. -/
def colMean (xs : List ℚ) : ℚ := xs.sum / (xs.length : ℚ)

/-- Population variance of a column, as computed by StandardScaler.fit. -/
def colVar (xs : List ℚ) : ℚ :=
  ((xs.map (fun x => (x - colMean xs) ^ 2)).sum) / (xs.length : ℚ)

/-- Per-column statistics stored by a fitted StandardScaler: the column
mean and the divisor scale (the square root of the variance, after the
zero-variance adjustment sklearn applies; the square-root computation
is abstracted by the sqrtFn argument of the functions below). -/
structure ColStats where
  mean : ℚ
  scale : ℚ
  deriving DecidableEq, Repr

/-- Number of feature columns of a frame: the width of its first row
(pandas frames are rectangular; an empty frame has no columns). -/
def nFeatures (f : Frame) : Nat :=
  match f with
  | [] => 0
  | r :: _ => r.length

/-- Statistics computed by a successful StandardScaler.fit on a
(already column-masked) training frame: one mean/scale pair per
column, computed from that frame only. -/
def scalerFitStats (sqrtFn : ℚ → ℚ) (sub : Frame) : List ColStats :=
  (frameCols sub).map (fun col => ⟨colMean col, sqrtFn (colVar col)⟩)

/-- StandardScaler.fit including the sklearn input validation: fitting
on an input with zero feature columns is rejected by check_array
(ensure_min_features is 1) with a ValueError before any statistics are
computed; otherwise the per-column statistics are returned. -/
def scalerFit (sqrtFn : ℚ → ℚ) (sub : Frame) : Except PErr (List ColStats) :=
  if nFeatures sub = 0 then .error .valueErrorNoFeatures
  else .ok (scalerFitStats sqrtFn sub)

/-- StandardScaler.transform with given fitted statistics: every cell
is centred by the column mean and divided by the column scale. -/
def scalerTransform (stats : List ColStats) (sub : Frame) : Frame :=
  sub.map (fun row => row.zipWith (fun x st => (x - st.mean) / st.scale) stats)

/-- Python method map_cols_to_scale_to_boolean: one boolean per column
name, true when the column is in cols_to_scale.  The source reads the
column list from the module-level dataset X; in the executed path that
object is the table the pipeline was built from, so the mask is a
function of the column-name list, taken here as an argument (the spec
notes the outer-scope read as a latent defect). -/
def map_cols_to_scale_to_boolean (colNames : List String) (cols_to_scale : List String) :
    List Bool :=
  colNames.map (fun c => decide (c ∈ cols_to_scale))

/-- Statistics fitted inside get_scaled_train_and_test_sets: the
scaler is fitted on the masked columns of the training slice only
(failing when the mask selects no columns). -/
def foldScalerStats (sqrtFn : ℚ → ℚ) (mask : List Bool) (X : Frame)
    (train_index : List Nat) : Except PErr (List ColStats) :=
  scalerFit sqrtFn (selectCols mask (ilocRows X train_index))

/-- Python method get_scaled_train_and_test_sets: slices X and y with
iloc at the train and test indices, fits a StandardScaler on the masked
columns of the training slice (propagating the ValueError a
zero-column selection raises inside fit_transform), writes the
transformed training columns back into the training slice, transforms
the test slice columns with the same (train-fitted) scaler, and
returns the four slices. -/
def get_scaled_train_and_test_sets (sqrtFn : ℚ → ℚ) (mask : List Bool)
    (X y : Frame) (train_index test_index : List Nat) :
    Except PErr (Frame × Frame × Frame × Frame) :=
  let X_train := ilocRows X train_index
  let X_test := ilocRows X test_index
  let y_train := ilocRows y train_index
  let y_test := ilocRows y test_index
  match scalerFit sqrtFn (selectCols mask X_train) with
  | .error e => .error e
  | .ok stats =>
    let X_train2 := assignCols mask X_train (scalerTransform stats (selectCols mask X_train))
    let X_test2 := assignCols mask X_test (scalerTransform stats (selectCols mask X_test))
    .ok (X_train2, X_test2, y_train, y_test)

theorem get_scaled_train_component (sqrtFn : ℚ → ℚ) (mask : List Bool)
    (X y : Frame) (train_index test_index : List Nat) :
    (get_scaled_train_and_test_sets sqrtFn mask X y train_index test_index).map
        (fun r => r.1)
      = (scalerFit sqrtFn (selectCols mask (ilocRows X train_index))).map
          (fun stats => assignCols mask (ilocRows X train_index)
            (scalerTransform stats (selectCols mask (ilocRows X train_index)))) := by
  simp only [get_scaled_train_and_test_sets]
  rcases scalerFit sqrtFn (selectCols mask (ilocRows X train_index)) with e | stats <;> rfl

theorem get_scaled_test_component (sqrtFn : ℚ → ℚ) (mask : List Bool)
    (X y : Frame) (train_index test_index : List Nat) :
    (get_scaled_train_and_test_sets sqrtFn mask X y train_index test_index).map
        (fun r => r.2.1)
      = (scalerFit sqrtFn (selectCols mask (ilocRows X train_index))).map
          (fun stats => assignCols mask (ilocRows X test_index)
            (scalerTransform stats (selectCols mask (ilocRows X test_index)))) := by
  simp only [get_scaled_train_and_test_sets]
  rcases scalerFit sqrtFn (selectCols mask (ilocRows X train_index)) with e | stats <;> rfl

/-- C1: the Fold Scaler fits its standardization statistics on the
training slice only and applies the fitted transform to both slices:
for any two feature tables that agree on the training-slice rows, the
fitted statistics (including whether fitting succeeds) and the scaled
training output coincide, and whenever fitting succeeds the test
output is the raw test slice transformed with the train-fitted
statistics. -/
theorem fold_scaler_fits_on_train_only (sqrtFn : ℚ → ℚ) (mask : List Bool)
    (X1 X2 y1 y2 : Frame) (train_index test_index : List Nat)
    (h : ilocRows X1 train_index = ilocRows X2 train_index) :
    foldScalerStats sqrtFn mask X1 train_index
        = foldScalerStats sqrtFn mask X2 train_index
      ∧ (get_scaled_train_and_test_sets sqrtFn mask X1 y1 train_index test_index).map
            (fun r => r.1)
        = (get_scaled_train_and_test_sets sqrtFn mask X2 y2 train_index test_index).map
            (fun r => r.1)
      ∧ ∀ stats, foldScalerStats sqrtFn mask X1 train_index = .ok stats →
          (get_scaled_train_and_test_sets sqrtFn mask X1 y1 train_index test_index).map
              (fun r => r.2.1)
            = .ok (assignCols mask (ilocRows X1 test_index)
                (scalerTransform stats (selectCols mask (ilocRows X1 test_index)))) := by
  refine ⟨by simp only [foldScalerStats, h], ?_, ?_⟩
  · rw [get_scaled_train_component, get_scaled_train_component, h]
  · intro stats hst
    have hst2 : scalerFit sqrtFn (selectCols mask (ilocRows X1 train_index))
        = .ok stats := hst
    rw [get_scaled_test_component, hst2]
    rfl

/-- C1 witness: two concrete 3-row tables agreeing on the train rows 0
and 1 but differing on the test row 2 yield identical fitted statistics
and identical scaled training output, and the test slice is transformed
with the train-fitted statistics. -/
theorem fold_scaler_fits_on_train_only_witness :
    ilocRows [[1, 2], [3, 4], [5, 6]] [0, 1] = ilocRows [[1, 2], [3, 4], [9, 9]] [0, 1]
      ∧ (foldScalerStats id [true, false] [[1, 2], [3, 4], [5, 6]] [0, 1]
          = foldScalerStats id [true, false] [[1, 2], [3, 4], [9, 9]] [0, 1]
        ∧ (get_scaled_train_and_test_sets id [true, false]
              [[1, 2], [3, 4], [5, 6]] [[0], [1], [0]] [0, 1] [2]).map (fun r => r.1)
          = (get_scaled_train_and_test_sets id [true, false]
              [[1, 2], [3, 4], [9, 9]] [[1], [0], [1]] [0, 1] [2]).map (fun r => r.1)
        ∧ ∀ stats, foldScalerStats id [true, false] [[1, 2], [3, 4], [5, 6]] [0, 1]
              = .ok stats →
            (get_scaled_train_and_test_sets id [true, false]
                [[1, 2], [3, 4], [5, 6]] [[0], [1], [0]] [0, 1] [2]).map (fun r => r.2.1)
              = .ok (assignCols [true, false] (ilocRows [[1, 2], [3, 4], [5, 6]] [2])
                  (scalerTransform stats
                    (selectCols [true, false] (ilocRows [[1, 2], [3, 4], [5, 6]] [2]))))) :=
  ⟨by decide,
    fold_scaler_fits_on_train_only id [true, false]
      [[1, 2], [3, 4], [5, 6]] [[1, 2], [3, 4], [9, 9]]
      [[0], [1], [0]] [[1], [0], [1]] [0, 1] [2] (by decide)⟩

theorem map_cols_to_scale_to_boolean_empty (colNames : List String) :
    ∀ b ∈ map_cols_to_scale_to_boolean colNames [], b = false := by
  intro b hb
  simp only [map_cols_to_scale_to_boolean, List.mem_map] at hb
  obtain ⟨c, _, hc⟩ := hb
  simpa using hc.symm

theorem filter_zip_all_false (row : List ℚ) (mask : List Bool)
    (h : ∀ b ∈ mask, b = false) :
    (row.zip mask).filter (fun xb => xb.2) = [] := by
  induction row generalizing mask with
  | nil => simp
  | cons x xs ih =>
    cases mask with
    | nil => simp
    | cons b bs =>
      have hb : b = false := h b (by simp)
      have hbs : ∀ c ∈ bs, c = false := fun c hc => h c (by simp [hc])
      subst hb
      simp [List.zip_cons_cons, ih bs hbs]

theorem nFeatures_selectCols_all_false (mask : List Bool) (f : Frame)
    (h : ∀ b ∈ mask, b = false) : nFeatures (selectCols mask f) = 0 := by
  cases f with
  | nil => rfl
  | cons r rs =>
    simp only [selectCols, List.map_cons, nFeatures]
    rw [filter_zip_all_false r mask h]
    rfl

/-- C7: behavior at the empty scalable-column list.  The spec calls
this configuration a no-op, but the code is not: with cols_to_scale
empty, map_cols_to_scale_to_boolean yields an all-false mask, the
masked selection X_train.iloc[:, mask] is a zero-column frame, and
StandardScaler.fit_transform rejects it with a ValueError (check_array
requires at least one feature), so the Fold Scaler raises instead of
returning the four slices unchanged. -/
theorem fold_scaler_empty_cols_raises (sqrtFn : ℚ → ℚ) (colNames : List String)
    (X y : Frame) (train_index test_index : List Nat) :
    get_scaled_train_and_test_sets sqrtFn
        (map_cols_to_scale_to_boolean colNames []) X y train_index test_index
      = .error .valueErrorNoFeatures := by
  have h := map_cols_to_scale_to_boolean_empty colNames
  have hfit : scalerFit sqrtFn (selectCols (map_cols_to_scale_to_boolean colNames [])
        (ilocRows X train_index)) = .error .valueErrorNoFeatures := by
    unfold scalerFit
    rw [nFeatures_selectCols_all_false _ _ h]
    simp
  simp only [get_scaled_train_and_test_sets, hfit]

/-- Heap of live DataFrame objects: a reference is an index into the
allocation list.  This makes the in-place iloc assignments of the
source observable, so that non-mutation of the shared table is a real
statement rather than a byproduct of a purely functional model. -/
structure Store where
  frames : List Frame
  deriving DecidableEq, Repr

/-- Reading the frame behind a reference. -/
def Store.read (s : Store) (r : Nat) : Frame := s.frames.getD r []

/-- Allocating a fresh frame (pandas fancy row indexing returns a new
object); returns the extended store and the fresh reference. -/
def Store.alloc (s : Store) (f : Frame) : Store × Nat :=
  (⟨s.frames ++ [f]⟩, s.frames.length)

/-- Overwriting the frame behind a reference (in-place iloc column
assignment). -/
def Store.write (s : Store) (r : Nat) (f : Frame) : Store :=
  ⟨s.frames.set r f⟩

/-- Store-level rendition of get_scaled_train_and_test_sets: the
train/test slices of X and y are fresh copies (iloc with an index array
copies), the masked-column assignments write in place into those fresh
objects only, and the references to the four slices are returned
together with the final store.  The statistics step uses the
successful-fit statistics: a fit failure aborts before any write, so
modelling both writes is the conservative case for the
frame-preservation property proved below. -/
def get_scaled_train_and_test_sets_s (sqrtFn : ℚ → ℚ) (mask : List Bool)
    (s : Store) (rX rY : Nat) (train_index test_index : List Nat) :
    Store × Nat × Nat × Nat × Nat :=
  let X := s.read rX
  let Y := s.read rY
  let (s1, rXtr) := s.alloc (ilocRows X train_index)
  let (s2, rXte) := s1.alloc (ilocRows X test_index)
  let (s3, rYtr) := s2.alloc (ilocRows Y train_index)
  let (s4, rYte) := s3.alloc (ilocRows Y test_index)
  let stats := scalerFitStats sqrtFn (selectCols mask (s4.read rXtr))
  let s5 := s4.write rXtr
    (assignCols mask (s4.read rXtr) (scalerTransform stats (selectCols mask (s4.read rXtr))))
  let s6 := s5.write rXte
    (assignCols mask (s5.read rXte) (scalerTransform stats (selectCols mask (s5.read rXte))))
  (s6, rXtr, rXte, rYtr, rYte)

/-- Store-level cross-validation pass of create_splits_and_calc_scores:
one Fold Scaler invocation per fold, threading the store (model fitting
and metric computation read the fold slices but write no frame). -/
def create_splits_s (sqrtFn : ℚ → ℚ) (mask : List Bool)
    (s : Store) (rX rY : Nat) (folds : List (List Nat × List Nat)) : Store :=
  folds.foldl
    (fun acc fold => (get_scaled_train_and_test_sets_s sqrtFn mask acc rX rY fold.1 fold.2).1)
    s


/-- Store-level search loop shared by grid and random search: every
configuration triggers one full cross-validation pass over the same
fold list against the same shared X and y references (nConfigs passes
in total). -/
def search_loop_s (sqrtFn : ℚ → ℚ) (mask : List Bool)
    (rX rY : Nat) (folds : List (List Nat × List Nat)) : Store → Nat → Store
  | s, 0 => s
  | s, n + 1 =>
    search_loop_s sqrtFn mask rX rY folds (create_splits_s sqrtFn mask s rX rY folds) n

theorem read_alloc_of_lt (s : Store) (f : Frame) (r : Nat)
    (h : r < s.frames.length) : (s.alloc f).1.read r = s.read r := by
  simp only [Store.alloc, Store.read]
  rw [List.getD_eq_getElem?_getD, List.getD_eq_getElem?_getD,
    List.getElem?_append_left h]

theorem read_write_of_lt (s : Store) (f : Frame) (r w : Nat)
    (hr : r < s.frames.length) (hw : s.frames.length ≤ w) :
    (s.write w f).read r = s.read r := by
  simp only [Store.write, Store.read]
  rw [List.getD_eq_getElem?_getD, List.getD_eq_getElem?_getD,
    List.getElem?_set_ne (by omega)]

theorem get_scaled_s_preserves (sqrtFn : ℚ → ℚ) (mask : List Bool)
    (s : Store) (rX rY : Nat) (train_index test_index : List Nat) (r : Nat)
    (h : r < s.frames.length) :
    (get_scaled_train_and_test_sets_s sqrtFn mask s rX rY train_index test_index).1.read r
        = s.read r
      ∧ s.frames.length
        ≤ (get_scaled_train_and_test_sets_s sqrtFn mask s rX rY train_index test_index).1.frames.length := by
  simp only [get_scaled_train_and_test_sets_s, Store.alloc, Store.write]
  constructor
  · simp only [Store.read]
    rw [List.getD_eq_getElem?_getD, List.getD_eq_getElem?_getD]
    rw [List.getElem?_set_ne (by simp; omega), List.getElem?_set_ne (by simp; omega)]
    simp only [List.append_assoc]
    rw [List.getElem?_append_left (by simpa using h)]
    rw [← List.getD_eq_getElem?_getD]
  · simp only [List.length_set, List.length_append]
    omega

theorem create_splits_s_preserves (sqrtFn : ℚ → ℚ) (mask : List Bool)
    (folds : List (List Nat × List Nat)) (s : Store) (rX rY : Nat) (r : Nat)
    (h : r < s.frames.length) :
    (create_splits_s sqrtFn mask s rX rY folds).read r = s.read r
      ∧ s.frames.length ≤ (create_splits_s sqrtFn mask s rX rY folds).frames.length := by
  induction folds generalizing s with
  | nil => exact ⟨rfl, le_refl _⟩
  | cons fold rest ih =>
    have h1 := get_scaled_s_preserves sqrtFn mask s rX rY fold.1 fold.2 r h
    have h2 := ih (get_scaled_train_and_test_sets_s sqrtFn mask s rX rY fold.1 fold.2).1
      (lt_of_lt_of_le h h1.2)
    exact ⟨by simpa [create_splits_s] using h2.1.trans h1.1,
      by simpa [create_splits_s] using h1.2.trans h2.2⟩

/-- C9: across a whole search run (any number of configurations, any
fold list, grid or random), the shared feature table X and label table
y are never mutated: every reference live before the run still reads
the same frame afterwards, because each fold writes only into the
fresh copies produced by iloc row slicing. -/
theorem search_run_leaves_dataset_unchanged (sqrtFn : ℚ → ℚ) (mask : List Bool)
    (s : Store) (rX rY : Nat) (folds : List (List Nat × List Nat)) (nConfigs : Nat)
    (hX : rX < s.frames.length) (hY : rY < s.frames.length) :
    (search_loop_s sqrtFn mask rX rY folds s nConfigs).read rX = s.read rX
      ∧ (search_loop_s sqrtFn mask rX rY folds s nConfigs).read rY = s.read rY := by
  suffices hgen : ∀ n (s0 : Store), ∀ r, r < s0.frames.length →
      (search_loop_s sqrtFn mask rX rY folds s0 n).read r = s0.read r
        ∧ s0.frames.length ≤ (search_loop_s sqrtFn mask rX rY folds s0 n).frames.length by
    exact ⟨(hgen nConfigs s rX hX).1, (hgen nConfigs s rY hY).1⟩
  intro n
  induction n with
  | zero => exact fun s0 r h => ⟨rfl, le_refl _⟩
  | succ m ih =>
    intro s0 r h
    have h1 := create_splits_s_preserves sqrtFn mask folds s0 rX rY r h
    have h2 := ih (create_splits_s sqrtFn mask s0 rX rY folds) r (lt_of_lt_of_le h h1.2)
    exact ⟨by simpa [search_loop_s] using h2.1.trans h1.1,
      by simpa [search_loop_s] using h1.2.trans h2.2⟩

/-- C9 witness: a concrete store with a 3-row X at reference 0 and y at
reference 1, two folds and two configurations; both references read the
original frames after the run. -/
theorem search_run_leaves_dataset_unchanged_witness :
    (0 < (Store.mk [[[1, 2], [3, 4], [5, 6]], [[0], [1], [0]]]).frames.length
        ∧ 1 < (Store.mk [[[1, 2], [3, 4], [5, 6]], [[0], [1], [0]]]).frames.length)
      ∧ ((search_loop_s id [true, false] 0 1 [([0, 1], [2]), ([2, 0], [1])]
            (Store.mk [[[1, 2], [3, 4], [5, 6]], [[0], [1], [0]]]) 2).read 0
          = (Store.mk [[[1, 2], [3, 4], [5, 6]], [[0], [1], [0]]]).read 0
        ∧ (search_loop_s id [true, false] 0 1 [([0, 1], [2]), ([2, 0], [1])]
            (Store.mk [[[1, 2], [3, 4], [5, 6]], [[0], [1], [0]]]) 2).read 1
          = (Store.mk [[[1, 2], [3, 4], [5, 6]], [[0], [1], [0]]]).read 1) :=
  ⟨⟨by decide, by decide⟩,
    search_run_leaves_dataset_unchanged id [true, false]
      (Store.mk [[[1, 2], [3, 4], [5, 6]], [[0], [1], [0]]]) 0 1
      [([0, 1], [2]), ([2, 0], [1])] 2 (by decide) (by decide)⟩

/-- Value of one parameter-space entry: a bare scalar, a Python list of
candidates, or a tuple of values (the scalar type is abstract). -/
inductive PEntry (α : Type) where
  | scalar : α → PEntry α
  | list : List α → PEntry α
  | tuple : List α → PEntry α
  deriving DecidableEq, Repr

/-- Parameter space: association list from hyperparameter name to
entry (the param_space dict of the pipeline). -/
abbrev ParamSpace (α : Type) := List (String × PEntry α)

/-- Concrete configuration: one value per hyperparameter name (the
iteration_params dict handed to one trial). -/
abbrev Config (α : Type) := List (String × α)

/-- Candidate sequence an entry contributes to sklearn ParameterGrid:
lists and tuples are iterable and are enumerated; a bare scalar is
rejected by ParameterGrid with a TypeError (single values must be
wrapped in a one-element list). -/
def PEntry.gridCandidates {α : Type} : PEntry α → Except PErr (List α)
  | .scalar _ => .error .typeErrorGridValue
  | .list l => .ok l
  | .tuple l => .ok l

/-- Candidate sequences of all entries of a space, failing on the
first non-iterable entry as ParameterGrid construction does. -/
def gridValues {α : Type} : ParamSpace α → Except PErr (List (List α))
  | [] => .ok []
  | (_, e) :: rest =>
    match e.gridCandidates, gridValues rest with
    | .error er, _ => .error er
    | .ok _, .error er => .error er
    | .ok l, .ok ls => .ok (l :: ls)

/-- Cartesian product of candidate lists in itertools.product order:
one output list per choice of one element from every input list. -/
def productLists {α : Type} : List (List α) → List (List α)
  | [] => [[]]
  | l :: ls => l.flatMap (fun a => (productLists ls).map (fun vs => a :: vs))

/-- Python class ParameterGrid applied to a parameter-space dict: every
entry value must be iterable (else TypeError), and the grid is the list
of configurations pairing the keys with every member of the Cartesian
product of the candidate sequences. -/
def parameterGrid {α : Type} (space : ParamSpace α) : Except PErr (List (Config α)) :=
  match gridValues space with
  | .error er => .error er
  | .ok valss => .ok ((productLists valss).map (fun vs => (space.map Prod.fst).zip vs))

/-- Mutable search session state of the pipeline: the parallel lists
self.params and self.scores, in insertion order. -/
structure SessionState (α μ : Type) where
  params : List (Config α)
  scores : List μ
  deriving DecidableEq, Repr

/-- Python method append_params_and_calculate_scores: the configuration
is appended to self.params first; then the cross-validated score is
computed (which may raise), and only on success is it appended to
self.scores.  The state reached in either case is returned together
with the outcome. -/
def append_params_and_calculate_scores {α μ : Type}
    (evalCfg : Config α → Except PErr μ) (st : SessionState α μ) (cfg : Config α) :
    Except PErr Unit × SessionState α μ :=
  let st1 : SessionState α μ := ⟨st.params ++ [cfg], st.scores⟩
  match evalCfg cfg with
  | .error e => (.error e, st1)
  | .ok m => (.ok (), ⟨st1.params, st1.scores ++ [m]⟩)

/-- Trial loop shared by both search strategies: evaluate and record
each configuration in order; a raised error aborts the loop at once,
leaving the state reached so far. -/
def runTrials {α μ : Type} (evalCfg : Config α → Except PErr μ)
    (st : SessionState α μ) : List (Config α) → Except PErr Unit × SessionState α μ
  | [] => (.ok (), st)
  | c :: cs =>
    match append_params_and_calculate_scores evalCfg st c with
    | (.error e, st1) => (.error e, st1)
    | (.ok _, st1) => runTrials evalCfg st1 cs

/-- Python method optimize_hypers_using_grid_search: iterate over
ParameterGrid(param_space) and evaluate-and-record each configuration
(a ParameterGrid construction error is raised before any trial). -/
def optimize_hypers_using_grid_search {α μ : Type}
    (evalCfg : Config α → Except PErr μ) (st : SessionState α μ) (space : ParamSpace α) :
    Except PErr Unit × SessionState α μ :=
  match parameterGrid space with
  | .error e => (.error e, st)
  | .ok configs => runTrials evalCfg st configs

/-- Python function random.choice on a list, with the drawn position
supplied by the abstract random source r: on an empty sequence it
raises IndexError. -/
def chooseFrom {α : Type} (r : Nat) : List α → Except PErr α
  | [] => .error .indexErrorEmptyChoice
  | a :: as => .ok ((a :: as).get ⟨r % (a :: as).length, Nat.mod_lt r (Nat.succ_pos _)⟩)

/-- Python method get_random_params: rebuild the dict, drawing one
element of every value that is exactly a Python list (type(v) == list)
and passing every other value (scalar, tuple, any other sequence)
through unchanged; rnd supplies the random draw for each position of
the space. -/
def get_random_params {α : Type} (rnd : Nat → Nat) : ParamSpace α → Except PErr (ParamSpace α)
  | [] => .ok []
  | (k, PEntry.list l) :: rest =>
    match chooseFrom (rnd 0) l, get_random_params (fun i => rnd (i + 1)) rest with
    | .error e, _ => .error e
    | .ok _, .error e => .error e
    | .ok a, .ok out => .ok ((k, PEntry.scalar a) :: out)
  | (k, v) :: rest =>
    match get_random_params (fun i => rnd (i + 1)) rest with
    | .error e => .error e
    | .ok out => .ok ((k, v) :: out)

theorem sum_map_const {α : Type} (l : List α) (k : Nat) :
    (l.map (fun _ => k)).sum = l.length * k := by
  induction l with
  | nil => simp
  | cons a t ih => simp [ih, Nat.succ_mul, Nat.add_comm]

theorem length_productLists {α : Type} :
    ∀ ls : List (List α), (productLists ls).length = (ls.map List.length).prod
  | [] => rfl
  | l :: ls => by
    simp only [productLists, List.length_flatMap, Function.comp_def, List.length_map,
      length_productLists ls, List.map_cons, List.prod_cons]
    exact sum_map_const l _

theorem mem_productLists {α : Type} {ls : List (List α)} {vs : List α} :
    vs ∈ productLists ls ↔ List.Forall₂ (fun a l => a ∈ l) vs ls := by
  induction ls generalizing vs with
  | nil => simp [productLists, List.forall₂_nil_right_iff]
  | cons l t ih =>
    simp only [productLists, List.mem_flatMap, List.mem_map, List.forall₂_cons_right_iff]
    constructor
    · rintro ⟨a, ha, ws, hws, rfl⟩
      exact ⟨a, ws, ha, ih.mp hws, rfl⟩
    · rintro ⟨a, ws, ha, hws, rfl⟩
      exact ⟨a, ha, ws, ih.mpr hws, rfl⟩

theorem nodup_productLists {α : Type} :
    ∀ {ls : List (List α)}, (∀ l ∈ ls, l.Nodup) → (productLists ls).Nodup := by
  intro ls
  induction ls with
  | nil => intro _; simp [productLists]
  | cons l t ih =>
    intro h
    have hl : l.Nodup := h l (by simp)
    have ht : (productLists t).Nodup := ih (fun x hx => h x (by simp [hx]))
    simp only [productLists]
    rw [List.nodup_flatMap]
    constructor
    · exact fun a _ => ht.map (fun ws1 ws2 hws => by injection hws)
    · refine hl.imp ?_
      intro a b hne x hxa hxb
      simp only [List.mem_map] at hxa hxb
      obtain ⟨w1, _, rfl⟩ := hxa
      obtain ⟨w2, _, h2⟩ := hxb
      injection h2 with h21 _
      exact hne h21.symm

theorem zip_right_inj {α β : Type} :
    ∀ (keys : List α) (v1 v2 : List β), v1.length = keys.length → v2.length = keys.length →
      keys.zip v1 = keys.zip v2 → v1 = v2 := by
  intro keys
  induction keys with
  | nil =>
    intro v1 v2 h1 h2 _
    cases v1 <;> cases v2 <;> simp_all
  | cons k t ih =>
    intro v1 v2 h1 h2 heq
    cases v1 with
    | nil => simp at h1
    | cons a as =>
      cases v2 with
      | nil => simp at h2
      | cons b bs =>
        simp only [List.zip_cons_cons, List.cons.injEq, Prod.mk.injEq] at heq
        simp only [List.length_cons, Nat.add_right_cancel_iff] at h1 h2
        rw [heq.1.2, ih as bs h1 h2 heq.2]

theorem gridValues_of_lists {α : Type} :
    ∀ ls : List (String × List α),
      gridValues (ls.map (fun kl => (kl.1, PEntry.list kl.2))) = .ok (ls.map Prod.snd)
  | [] => rfl
  | kl :: t => by
    simp only [List.map_cons, gridValues, PEntry.gridCandidates, gridValues_of_lists t]

theorem zip_keys_mem_forall₂ {α : Type} :
    ∀ (ls : List (String × List α)) (cfg : Config α),
      (∃ vs, List.Forall₂ (fun a l => a ∈ l) vs (ls.map Prod.snd)
          ∧ cfg = (ls.map Prod.fst).zip vs)
        ↔ List.Forall₂ (fun (kv : String × α) (kl : String × List α) =>
            kv.1 = kl.1 ∧ kv.2 ∈ kl.2) cfg ls := by
  intro ls
  induction ls with
  | nil =>
    intro cfg
    constructor
    · rintro ⟨vs, hvs, rfl⟩
      simp at hvs
      simp [hvs]
    · intro h
      rw [List.forall₂_nil_right_iff] at h
      exact ⟨[], by simp, by simp [h]⟩
  | cons kl t ih =>
    intro cfg
    constructor
    · rintro ⟨vs, hvs, rfl⟩
      simp only [List.map_cons] at hvs
      rw [List.forall₂_cons_right_iff] at hvs
      obtain ⟨a, ws, ha, hws, rfl⟩ := hvs
      simp only [List.map_cons, List.zip_cons_cons]
      exact List.Forall₂.cons ⟨rfl, ha⟩ ((ih _).mp ⟨ws, hws, rfl⟩)
    · intro h
      rw [List.forall₂_cons_right_iff] at h
      obtain ⟨kv, cfg2, ⟨hk, hv⟩, h2, rfl⟩ := h
      obtain ⟨vs, hvs, hcfg⟩ := (ih cfg2).mpr h2
      refine ⟨kv.2 :: vs, ?_, ?_⟩
      · simp only [List.map_cons]
        exact List.Forall₂.cons hv hvs
      · simp only [List.map_cons, List.zip_cons_cons, hcfg]
        rw [← hk]

theorem runTrials_of_all_ok {α μ : Type} (evalCfg : Config α → Except PErr μ) :
    ∀ (configs : List (Config α)) (st : SessionState α μ),
      (∀ c ∈ configs, ∃ m, evalCfg c = .ok m) →
      (runTrials evalCfg st configs).1 = .ok ()
        ∧ (runTrials evalCfg st configs).2.params = st.params ++ configs
        ∧ (runTrials evalCfg st configs).2.scores.length
            = st.scores.length + configs.length := by
  intro configs
  induction configs with
  | nil => intro st _; simp [runTrials]
  | cons c cs ih =>
    intro st h
    obtain ⟨m, hm⟩ := h c (by simp)
    have hrest := ih ⟨st.params ++ [c], st.scores ++ [m]⟩ (fun x hx => h x (by simp [hx]))
    simp only [runTrials, append_params_and_calculate_scores, hm]
    refine ⟨hrest.1, ?_, ?_⟩
    · rw [hrest.2.1]; simp
    · rw [hrest.2.2]; simp; omega

/-- C2 (amended): for a parameter space whose entries are candidate
lists with pairwise-distinct candidates (fixed entries as singleton
lists), grid search on a fresh session records exactly the product of
the list sizes as Trial Records, with no configuration repeated and
with exactly one record for every combination of the Cartesian product
of the entries.  The distinctness hypothesis is necessary: a candidate
list with a repeated value makes ParameterGrid emit the same
configuration more than once. -/
theorem grid_search_enumerates_cartesian_product {α μ : Type}
    (evalCfg : Config α → Except PErr μ) (ls : List (String × List α))
    (space : ParamSpace α)
    (hspace : space = ls.map (fun kl => (kl.1, PEntry.list kl.2)))
    (hnodup : ∀ kl ∈ ls, kl.2.Nodup)
    (heval : ∀ c, ∃ m, evalCfg c = .ok m) :
    (optimize_hypers_using_grid_search evalCfg ⟨[], []⟩ space).1 = .ok ()
      ∧ (optimize_hypers_using_grid_search evalCfg ⟨[], []⟩ space).2.params.length
          = (ls.map (fun kl => kl.2.length)).prod
      ∧ (optimize_hypers_using_grid_search evalCfg ⟨[], []⟩ space).2.scores.length
          = (ls.map (fun kl => kl.2.length)).prod
      ∧ (optimize_hypers_using_grid_search evalCfg ⟨[], []⟩ space).2.params.Nodup
      ∧ ∀ cfg, cfg ∈ (optimize_hypers_using_grid_search evalCfg ⟨[], []⟩ space).2.params
          ↔ List.Forall₂ (fun (kv : String × α) (kl : String × List α) =>
              kv.1 = kl.1 ∧ kv.2 ∈ kl.2) cfg ls := by
  subst hspace
  have hkeys : ((ls.map (fun kl => (kl.1, PEntry.list kl.2))).map Prod.fst)
      = ls.map Prod.fst := by
    rw [List.map_map]
    rfl
  have hpg : parameterGrid (ls.map (fun kl => (kl.1, PEntry.list kl.2)))
      = .ok ((productLists (ls.map Prod.snd)).map
          (fun vs => (ls.map Prod.fst).zip vs)) := by
    simp only [parameterGrid, gridValues_of_lists ls, hkeys]
  have hrun := runTrials_of_all_ok evalCfg
    ((productLists (ls.map Prod.snd)).map (fun vs => (ls.map Prod.fst).zip vs))
    ⟨[], []⟩ (fun c _ => heval c)
  have hres : optimize_hypers_using_grid_search evalCfg ⟨[], []⟩
        (ls.map (fun kl => (kl.1, PEntry.list kl.2)))
      = runTrials evalCfg ⟨[], []⟩
        ((productLists (ls.map Prod.snd)).map (fun vs => (ls.map Prod.fst).zip vs)) := by
    simp only [optimize_hypers_using_grid_search, hpg]
  rw [hres]
  have hlen : ((productLists (ls.map Prod.snd)).map
        (fun vs => (ls.map Prod.fst).zip vs)).length
      = (ls.map (fun kl => kl.2.length)).prod := by
    rw [List.length_map, length_productLists, List.map_map]
    rfl
  have hmemlen : ∀ vs ∈ productLists (ls.map Prod.snd), vs.length = ls.length := by
    intro vs hvs
    have := (mem_productLists.mp hvs).length_eq
    simpa using this
  refine ⟨hrun.1, ?_, ?_, ?_, ?_⟩
  · rw [hrun.2.1]; simpa using hlen
  · rw [hrun.2.2]; simpa using hlen
  · rw [hrun.2.1]
    simp only [List.nil_append]
    refine List.Nodup.map_on ?_ (nodup_productLists ?_)
    · intro v1 h1 v2 h2 heq
      exact zip_right_inj (ls.map Prod.fst) v1 v2
        (by rw [hmemlen v1 h1, List.length_map])
        (by rw [hmemlen v2 h2, List.length_map]) heq
    · intro l hl
      simp only [List.mem_map] at hl
      obtain ⟨kl, hkl, rfl⟩ := hl
      exact hnodup kl hkl
  · intro cfg
    rw [hrun.2.1]
    simp only [List.nil_append, List.mem_map]
    rw [← zip_keys_mem_forall₂ ls cfg]
    constructor
    · rintro ⟨vs, hvs, rfl⟩
      exact ⟨vs, mem_productLists.mp hvs, rfl⟩
    · rintro ⟨vs, hvs, rfl⟩
      exact ⟨vs, mem_productLists.mpr hvs, rfl⟩

/-- C2 counterexample: the claim as stated fails on a candidate list
with a repeated value: the space a maps-to [0, 0] has one variable
entry of size 2, and grid search records the configuration a = 0
twice, so a combination is repeated. -/
theorem grid_search_duplicate_candidates_repeat_combination :
    (optimize_hypers_using_grid_search (fun _ => Except.ok (0 : ℕ))
        (⟨[], []⟩ : SessionState ℕ ℕ) [("a", PEntry.list [0, 0])]).2.params
      = [[("a", 0)], [("a", 0)]]
    ∧ ¬ (optimize_hypers_using_grid_search (fun _ => Except.ok (0 : ℕ))
        (⟨[], []⟩ : SessionState ℕ ℕ) [("a", PEntry.list [0, 0])]).2.params.Nodup := by
  exact ⟨rfl, by decide⟩

/-- C2 witness: the space a maps-to [1, 2], b maps-to [3] (sizes 2 and
1, all candidates distinct) yields exactly 2 records, without
repetition, covering the full Cartesian product. -/
theorem grid_search_enumerates_cartesian_product_witness :
    ((∀ kl ∈ [("a", [1, 2]), ("b", [3])], (kl.2 : List ℕ).Nodup)
        ∧ (∀ c : Config ℕ, ∃ m : ℕ,
            (fun _ => (Except.ok 0 : Except PErr ℕ)) c = Except.ok m))
      ∧ ((optimize_hypers_using_grid_search (fun _ => Except.ok (0 : ℕ)) ⟨[], []⟩
            ([("a", [1, 2]), ("b", [3])].map (fun kl => (kl.1, PEntry.list kl.2)))).1
          = .ok ()
        ∧ (optimize_hypers_using_grid_search (fun _ => Except.ok (0 : ℕ)) ⟨[], []⟩
            ([("a", [1, 2]), ("b", [3])].map
              (fun kl => (kl.1, PEntry.list kl.2)))).2.params.length
          = ([("a", [1, 2]), ("b", [3])].map (fun kl => kl.2.length)).prod
        ∧ (optimize_hypers_using_grid_search (fun _ => Except.ok (0 : ℕ)) ⟨[], []⟩
            ([("a", [1, 2]), ("b", [3])].map
              (fun kl => (kl.1, PEntry.list kl.2)))).2.scores.length
          = ([("a", [1, 2]), ("b", [3])].map (fun kl => kl.2.length)).prod
        ∧ (optimize_hypers_using_grid_search (fun _ => Except.ok (0 : ℕ)) ⟨[], []⟩
            ([("a", [1, 2]), ("b", [3])].map
              (fun kl => (kl.1, PEntry.list kl.2)))).2.params.Nodup
        ∧ ∀ cfg, cfg ∈ (optimize_hypers_using_grid_search (fun _ => Except.ok (0 : ℕ))
              ⟨[], []⟩ ([("a", [1, 2]), ("b", [3])].map
                (fun kl => (kl.1, PEntry.list kl.2)))).2.params
            ↔ List.Forall₂ (fun (kv : String × ℕ) (kl : String × List ℕ) =>
                kv.1 = kl.1 ∧ kv.2 ∈ kl.2) cfg [("a", [1, 2]), ("b", [3])]) :=
  ⟨⟨by decide, fun _ => ⟨0, rfl⟩⟩,
    grid_search_enumerates_cartesian_product (fun _ => Except.ok (0 : ℕ))
      [("a", [1, 2]), ("b", [3])] _ rfl (by decide) (fun _ => ⟨0, rfl⟩)⟩

theorem productLists_singletons {α : Type} :
    ∀ vs : List α, productLists (vs.map (fun v => [v])) = [vs]
  | [] => rfl
  | v :: t => by
    simp only [List.map_cons, productLists, productLists_singletons t]
    rfl

theorem zip_fst_snd_self {α β : Type} :
    ∀ l : List (α × β), (l.map Prod.fst).zip (l.map Prod.snd) = l
  | [] => rfl
  | kv :: t => by
    simp only [List.map_cons, List.zip_cons_cons, zip_fst_snd_self t]

theorem gridValues_of_singletons {α : Type} :
    ∀ ls : List (String × α),
      gridValues (ls.map (fun kv => (kv.1, PEntry.list [kv.2])))
        = .ok (ls.map (fun kv => [kv.2]))
  | [] => rfl
  | kv :: t => by
    simp only [List.map_cons, gridValues, PEntry.gridCandidates,
      gridValues_of_singletons t]

/-- C8 counterexample: the claim as stated fails for fixed scalar
entries: on the space a maps-to the bare scalar 5, ParameterGrid
raises a TypeError (a single value must be wrapped in a one-element
list), so the search aborts with zero Trial Records instead of
producing one. -/
theorem grid_search_scalar_entry_raises :
    optimize_hypers_using_grid_search (fun _ => Except.ok (0 : ℕ))
        (⟨[], []⟩ : SessionState ℕ ℕ) [("a", PEntry.scalar 5)]
      = (.error .typeErrorGridValue, ⟨[], []⟩) := rfl

/-- C8 (amended): for a parameter space containing only fixed entries,
each written as a one-element candidate list, grid search on a fresh
session produces exactly one Trial Record whose configuration equals
the fixed entries. -/
theorem grid_search_only_fixed_entries_one_trial {α μ : Type}
    (evalCfg : Config α → Except PErr μ) (ls : List (String × α))
    (space : ParamSpace α)
    (hspace : space = ls.map (fun kv => (kv.1, PEntry.list [kv.2])))
    (heval : ∀ c, ∃ m, evalCfg c = .ok m) :
    (optimize_hypers_using_grid_search evalCfg ⟨[], []⟩ space).1 = .ok ()
      ∧ (optimize_hypers_using_grid_search evalCfg ⟨[], []⟩ space).2.params = [ls]
      ∧ (optimize_hypers_using_grid_search evalCfg ⟨[], []⟩ space).2.scores.length = 1 := by
  subst hspace
  have hkeys : ((ls.map (fun kv => (kv.1, PEntry.list [kv.2]))).map Prod.fst)
      = ls.map Prod.fst := by
    rw [List.map_map]
    rfl
  have hvals : ls.map (fun kv => [(kv : String × α).2])
      = (ls.map Prod.snd).map (fun v => [v]) := by
    rw [List.map_map]
    rfl
  have hgv := gridValues_of_singletons ls
  have hpg : parameterGrid (ls.map (fun kv => (kv.1, PEntry.list [kv.2])))
      = .ok [ls] := by
    simp only [parameterGrid, hgv, hkeys]
    rw [hvals, productLists_singletons]
    simp only [List.map_cons, List.map_nil]
    rw [zip_fst_snd_self]
  have hrun := runTrials_of_all_ok evalCfg [ls] ⟨[], []⟩ (fun c _ => heval c)
  have hres : optimize_hypers_using_grid_search evalCfg ⟨[], []⟩
        (ls.map (fun kv => (kv.1, PEntry.list [kv.2])))
      = runTrials evalCfg ⟨[], []⟩ [ls] := by
    simp only [optimize_hypers_using_grid_search, hpg]
  rw [hres]
  refine ⟨hrun.1, ?_, ?_⟩
  · rw [hrun.2.1]; simp
  · rw [hrun.2.2]; simp

/-- C8 witness: the all-fixed space a maps-to [5], b maps-to [7]
produces exactly the single configuration pairing a with 5 and b
with 7. -/
theorem grid_search_only_fixed_entries_one_trial_witness :
    (∀ c : Config ℕ, ∃ m : ℕ,
        (fun _ => (Except.ok 0 : Except PErr ℕ)) c = Except.ok m)
      ∧ ((optimize_hypers_using_grid_search (fun _ => Except.ok (0 : ℕ)) ⟨[], []⟩
            ([("a", 5), ("b", 7)].map (fun kv => (kv.1, PEntry.list [kv.2])))).1 = .ok ()
        ∧ (optimize_hypers_using_grid_search (fun _ => Except.ok (0 : ℕ)) ⟨[], []⟩
            ([("a", 5), ("b", 7)].map (fun kv => (kv.1, PEntry.list [kv.2])))).2.params
          = [[("a", 5), ("b", 7)]]
        ∧ (optimize_hypers_using_grid_search (fun _ => Except.ok (0 : ℕ)) ⟨[], []⟩
            ([("a", 5), ("b", 7)].map
              (fun kv => (kv.1, PEntry.list [kv.2])))).2.scores.length = 1) :=
  ⟨fun _ => ⟨0, rfl⟩,
    grid_search_only_fixed_entries_one_trial (fun _ => Except.ok (0 : ℕ))
      [("a", 5), ("b", 7)] _ rfl (fun _ => ⟨0, rfl⟩)⟩

/-- C10 counterexample: the claim as stated fails when a list value is
empty: random.choice raises IndexError on the space a maps-to the
empty list, so no dict is returned. -/
theorem get_random_params_empty_list_raises :
    get_random_params (fun _ => 0) [("a", PEntry.list ([] : List ℕ))]
      = .error .indexErrorEmptyChoice := rfl

/-- Relation between one entry of the dict returned by
get_random_params and the corresponding entry of the input space: the
key is unchanged, a Python-list value is replaced by one of its own
elements, and every other value passes through unchanged. -/
def randParamRel {α : Type} (kvo kvi : String × PEntry α) : Prop :=
  kvo.1 = kvi.1 ∧
    (match kvi.2 with
     | PEntry.list l => ∃ a ∈ l, kvo.2 = PEntry.scalar a
     | v => kvo.2 = v)

/-- C10 (amended): for every parameter-space dict whose list values
are all non-empty, get_random_params returns a dict with the same keys
in the same order, in which every value that is exactly a Python list
is replaced by one of its own elements, and every other value (scalar,
tuple or any other non-list value) is passed through unchanged. -/
theorem get_random_params_shape {α : Type} :
    ∀ (space : ParamSpace α) (rnd : Nat → Nat),
      (∀ kv ∈ space, kv.2 ≠ PEntry.list []) →
      ∃ out, get_random_params rnd space = .ok out
        ∧ out.map Prod.fst = space.map Prod.fst
        ∧ List.Forall₂ randParamRel out space := by
  intro space
  induction space with
  | nil => exact fun rnd _ => ⟨[], rfl, rfl, List.Forall₂.nil⟩
  | cons kv rest ih =>
    intro rnd h
    obtain ⟨k, v⟩ := kv
    obtain ⟨out2, hout2, hkeys2, hrel2⟩ :=
      ih (fun i => rnd (i + 1)) (fun x hx => h x (by simp [hx]))
    cases v with
    | list l =>
      cases l with
      | nil => exact (h (k, PEntry.list []) (by simp) rfl).elim
      | cons a as =>
        refine ⟨(k, PEntry.scalar ((a :: as).get
            ⟨rnd 0 % (a :: as).length, Nat.mod_lt _ (Nat.succ_pos _)⟩)) :: out2,
          ?_, ?_, ?_⟩
        · simp only [get_random_params, chooseFrom, hout2]
        · simp [hkeys2]
        · exact List.Forall₂.cons ⟨rfl, ⟨_, List.get_mem _ _ _, rfl⟩⟩ hrel2
    | scalar a =>
      refine ⟨(k, PEntry.scalar a) :: out2, ?_, by simp [hkeys2], ?_⟩
      · simp only [get_random_params, hout2]
      · exact List.Forall₂.cons ⟨rfl, rfl⟩ hrel2
    | tuple l =>
      refine ⟨(k, PEntry.tuple l) :: out2, ?_, by simp [hkeys2], ?_⟩
      · simp only [get_random_params, hout2]
      · exact List.Forall₂.cons ⟨rfl, rfl⟩ hrel2

/-- C10 witness: on the space a maps-to the list [10, 20], b maps-to
the tuple (3, 4), c maps-to the scalar 5, with the random source
always drawing position 1, the keys are preserved, the list entry is
replaced by one of its elements, and the tuple and scalar entries pass
through unchanged. -/
theorem get_random_params_shape_witness :
    (∀ kv ∈ [("a", PEntry.list [10, 20]), ("b", PEntry.tuple [3, 4]),
        ("c", PEntry.scalar (5 : ℕ))], kv.2 ≠ PEntry.list [])
      ∧ ∃ out, get_random_params (fun _ => 1)
            [("a", PEntry.list [10, 20]), ("b", PEntry.tuple [3, 4]),
              ("c", PEntry.scalar (5 : ℕ))] = .ok out
          ∧ out.map Prod.fst
            = [("a", PEntry.list [10, 20]), ("b", PEntry.tuple [3, 4]),
                ("c", PEntry.scalar (5 : ℕ))].map Prod.fst
          ∧ List.Forall₂ randParamRel out
              [("a", PEntry.list [10, 20]), ("b", PEntry.tuple [3, 4]),
                ("c", PEntry.scalar (5 : ℕ))] :=
  ⟨by decide,
    get_random_params_shape
      [("a", PEntry.list [10, 20]), ("b", PEntry.tuple [3, 4]),
        ("c", PEntry.scalar (5 : ℕ))] (fun _ => 1) (by decide)⟩

/-- C4: behavior at a failing trial.  With prior state params equal to
the one-trial list containing the configuration a = 1 and scores equal
to [7], evaluating the configuration b = 2 with a failing evaluator
surfaces the error and leaves scores unchanged, but the failed
configuration has already been appended to params: the recorded params
after the failure are not those of the previously completed trials. -/
theorem failed_trial_appends_config_to_params :
    append_params_and_calculate_scores
        (fun _ => (Except.error PErr.evalFailed : Except PErr ℕ))
        (⟨[[("a", 1)]], [7]⟩ : SessionState ℕ ℕ) [("b", 2)]
      = (.error .evalFailed, ⟨[[("a", 1)], [("b", 2)]], [7]⟩)
    ∧ ([[("a", 1)], [("b", 2)]] : List (Config ℕ)) ≠ [[("a", 1)]] :=
  ⟨rfl, by decide⟩

/-- Python expression np.max(metric_list): the maximum of a non-empty
list (0 as junk value on the empty list, on which numpy raises
instead). -/
def listMax : List ℚ → ℚ
  | [] => 0
  | [x] => x
  | x :: y :: ys => max x (listMax (y :: ys))

/-- Python expression np.argmax(metric_list): the position of the
first occurrence of the maximum, none on the empty list (on which
numpy raises a ValueError). -/
def argmaxIdx : List ℚ → Option Nat
  | [] => none
  | x :: xs =>
    match argmaxIdx xs with
    | none => some 0
    | some j => if x < listMax xs then some (j + 1) else some 0

theorem listMax_cons (x : ℚ) (xs : List ℚ) (h : xs ≠ []) :
    listMax (x :: xs) = max x (listMax xs) := by
  cases xs with
  | nil => exact absurd rfl h
  | cons y ys => rfl

theorem argmaxIdx_spec :
    ∀ l : List ℚ, l ≠ [] →
      ∃ i, argmaxIdx l = some i ∧ i < l.length
        ∧ l.getD i 0 = listMax l
        ∧ (∀ j, j < l.length → l.getD j 0 ≤ listMax l)
        ∧ ∀ j, j < i → l.getD j 0 < listMax l := by
  intro l
  induction l with
  | nil => exact fun h => absurd rfl h
  | cons x xs ih =>
    intro _
    by_cases hxs : xs = []
    · subst hxs
      refine ⟨0, rfl, by simp, rfl, ?_, by omega⟩
      intro j hj
      have hj0 : j = 0 := by simpa using hj
      subst hj0
      exact le_refl _
    · obtain ⟨i2, hax2, hlt2, hget2, hub2, hfirst2⟩ := ih hxs
      have hmax := listMax_cons x xs hxs
      have haxcons : argmaxIdx (x :: xs)
          = if x < listMax xs then some (i2 + 1) else some 0 := by
        rw [argmaxIdx, hax2]
      by_cases hcmp : x < listMax xs
      · refine ⟨i2 + 1, ?_, by simpa using hlt2, ?_, ?_, ?_⟩
        · rw [haxcons, if_pos hcmp]
        · rw [List.getD_cons_succ, hget2, hmax, max_eq_right (le_of_lt hcmp)]
        · intro j hj
          cases j with
          | zero =>
            rw [List.getD_cons_zero, hmax]
            exact le_max_left _ _
          | succ j2 =>
            rw [List.getD_cons_succ, hmax]
            exact le_trans (hub2 j2 (by simpa using hj)) (le_max_right _ _)
        · intro j hj
          cases j with
          | zero =>
            rw [List.getD_cons_zero, hmax, max_eq_right (le_of_lt hcmp)]
            exact hcmp
          | succ j2 =>
            rw [List.getD_cons_succ, hmax, max_eq_right (le_of_lt hcmp)]
            exact hfirst2 j2 (by omega)
      · push_neg at hcmp
        refine ⟨0, ?_, by simp, ?_, ?_, by omega⟩
        · rw [haxcons, if_neg (not_lt.mpr hcmp)]
        · rw [List.getD_cons_zero, hmax, max_eq_left hcmp]
        · intro j hj
          cases j with
          | zero =>
            rw [List.getD_cons_zero, hmax]
            exact le_max_left _ _
          | succ j2 =>
            rw [List.getD_cons_succ, hmax]
            exact le_trans (hub2 j2 (by simpa using hj)) (le_max_right _ _)

/-- Python method get_best_params: builds the metric list by reading
the chosen metric out of every recorded score bundle, and returns the
params entry at np.argmax of that list together with np.max of that
list; on an empty metric list numpy argmax raises (the error the spec
names NoTrialsRecorded), and an argmax position beyond the params list
raises an IndexError. -/
def get_best_params {α μ : Type} (getMetric : μ → ℚ) (st : SessionState α μ) :
    Except PErr (Config α × ℚ) :=
  let metric_list := st.scores.map getMetric
  match argmaxIdx metric_list with
  | none => .error .noTrialsRecorded
  | some i =>
    if h : i < st.params.length then .ok (st.params.get ⟨i, h⟩, listMax metric_list)
    else .error .indexError

/-- C3: on a non-empty session state with one params entry per score,
get_best_params returns the configuration stored at the position of
the maximum of the chosen metric over the records in insertion order,
together with that maximum value; at a tie the first such position
wins: every earlier position is strictly below the returned value. -/
theorem get_best_params_stable_argmax {α μ : Type} (getMetric : μ → ℚ)
    (st : SessionState α μ) (hlen : st.params.length = st.scores.length)
    (hne : st.scores ≠ []) :
    ∃ i, i < st.scores.length
      ∧ get_best_params getMetric st
          = .ok (st.params.getD i [], (st.scores.map getMetric).getD i 0)
      ∧ (∀ j, j < st.scores.length →
          (st.scores.map getMetric).getD j 0 ≤ (st.scores.map getMetric).getD i 0)
      ∧ ∀ j, j < i →
          (st.scores.map getMetric).getD j 0 < (st.scores.map getMetric).getD i 0 := by
  have hmlne : st.scores.map getMetric ≠ [] := by
    simpa using hne
  obtain ⟨i, hax, hlt, hget, hub, hfirst⟩ := argmaxIdx_spec (st.scores.map getMetric) hmlne
  have hilen : i < st.scores.length := by simpa using hlt
  have hip : i < st.params.length := by rw [hlen]; exact hilen
  refine ⟨i, hilen, ?_, ?_, ?_⟩
  · simp only [get_best_params, hax]
    rw [dif_pos hip, ← hget]
    have hgd : st.params.getD i [] = st.params.get ⟨i, hip⟩ := by
      rw [List.getD_eq_getElem st.params [] hip]
      simp
    rw [hgd]
  · intro j hj
    rw [hget]
    exact hub j (by simpa using hj)
  · intro j hj
    rw [hget]
    exact hfirst j hj

/-- C3 witness: with records scoring 0.7, 0.95 and 0.81 for the chosen
metric, the returned position is strictly inside the three records,
carries the maximum 0.95 (position 1), dominates all recorded values
and strictly dominates all earlier ones. -/
theorem get_best_params_stable_argmax_witness :
    ((⟨[[("m", 1)], [("m", 2)], [("m", 3)]], [7/10, 19/20, 81/100]⟩ :
          SessionState ℕ ℚ).params.length
        = (⟨[[("m", 1)], [("m", 2)], [("m", 3)]], [7/10, 19/20, 81/100]⟩ :
          SessionState ℕ ℚ).scores.length
      ∧ (⟨[[("m", 1)], [("m", 2)], [("m", 3)]], [7/10, 19/20, 81/100]⟩ :
          SessionState ℕ ℚ).scores ≠ [])
      ∧ ∃ i, i < (⟨[[("m", 1)], [("m", 2)], [("m", 3)]], [7/10, 19/20, 81/100]⟩ :
            SessionState ℕ ℚ).scores.length
          ∧ get_best_params id
              (⟨[[("m", 1)], [("m", 2)], [("m", 3)]], [7/10, 19/20, 81/100]⟩ :
                SessionState ℕ ℚ)
            = .ok ((⟨[[("m", 1)], [("m", 2)], [("m", 3)]],
                  [7/10, 19/20, 81/100]⟩ : SessionState ℕ ℚ).params.getD i [],
                (((⟨[[("m", 1)], [("m", 2)], [("m", 3)]], [7/10, 19/20, 81/100]⟩ :
                  SessionState ℕ ℚ).scores.map id).getD i 0))
          ∧ (∀ j, j < (⟨[[("m", 1)], [("m", 2)], [("m", 3)]],
                [7/10, 19/20, 81/100]⟩ : SessionState ℕ ℚ).scores.length →
              (((⟨[[("m", 1)], [("m", 2)], [("m", 3)]], [7/10, 19/20, 81/100]⟩ :
                  SessionState ℕ ℚ).scores.map id).getD j 0)
                ≤ (((⟨[[("m", 1)], [("m", 2)], [("m", 3)]], [7/10, 19/20, 81/100]⟩ :
                  SessionState ℕ ℚ).scores.map id).getD i 0))
          ∧ ∀ j, j < i →
              (((⟨[[("m", 1)], [("m", 2)], [("m", 3)]], [7/10, 19/20, 81/100]⟩ :
                  SessionState ℕ ℚ).scores.map id).getD j 0)
                < (((⟨[[("m", 1)], [("m", 2)], [("m", 3)]], [7/10, 19/20, 81/100]⟩ :
                  SessionState ℕ ℚ).scores.map id).getD i 0) :=
  ⟨⟨by decide, by decide⟩,
    get_best_params_stable_argmax id
      (⟨[[("m", 1)], [("m", 2)], [("m", 3)]], [7/10, 19/20, 81/100]⟩ :
        SessionState ℕ ℚ) (by decide) (by decide)⟩

/-- C6: get_best_params on a session state in which no trial has been
recorded fails with the NoTrialsRecorded error (the numpy ValueError
raised by argmax of an empty sequence) and returns no configuration. -/
theorem get_best_params_empty_fails {α μ : Type} (getMetric : μ → ℚ) :
    get_best_params getMetric (⟨[], []⟩ : SessionState α μ)
      = .error .noTrialsRecorded := rfl

/-- Estimator families the resolver can construct.  LogisticRegression
is, despite its name, a classification family (it exposes
predict_proba and predicts class labels); the Regressor variants are
the regression families of their backends. -/
inductive EstimatorFamily where
  | xgbClassifier
  | xgbRegressor
  | logisticRegression
  | knnClassifier
  | knnRegressor
  | catBoostClassifier
  | catBoostRegressor
  | lgbmClassifier
  | lgbmRegressor
  deriving DecidableEq, Repr

/-- Whether a family is a classification family. -/
def EstimatorFamily.isClassifier : EstimatorFamily → Bool
  | .xgbRegressor => false
  | .knnRegressor => false
  | .catBoostRegressor => false
  | .lgbmRegressor => false
  | _ => true

/-- Freshly constructed, untrained estimator: its family, the fixed
keyword options the source passes literally in the construction call
(objective and verbosity for the xgboost branches), and the
hyperparameter dict forwarded verbatim as construction options. -/
structure ModelEstimator (α : Type) where
  family : EstimatorFamily
  fixedOpts : List (String × String)
  opts : List (String × α)
  deriving DecidableEq, Repr

/-- Python method determine_model: string dispatch on the model tag,
branching on the classification flag inside each backend branch except
lr, which returns LogisticRegression for both modes; an unknown tag
raises the unsupported-model ValueError. -/
def determine_model {α : Type} (model : String) (classification : Bool)
    (params : List (String × α)) : Except PErr (ModelEstimator α) :=
  if model = "xgb" then
    if classification then
      .ok ⟨.xgbClassifier, [("objective", "binary:logistic"), ("verbosity", "0")], params⟩
    else
      .ok ⟨.xgbRegressor, [("objective", "reg:squarederror"), ("verbosity", "0")], params⟩
  else if model = "lr" then
    .ok ⟨.logisticRegression, [], params⟩
  else if model = "knn" then
    if classification then .ok ⟨.knnClassifier, [], params⟩
    else .ok ⟨.knnRegressor, [], params⟩
  else if model = "cat" then
    if classification then .ok ⟨.catBoostClassifier, [], params⟩
    else .ok ⟨.catBoostRegressor, [], params⟩
  else if model = "lgb" then
    if classification then .ok ⟨.lgbmClassifier, [], params⟩
    else .ok ⟨.lgbmRegressor, [], params⟩
  else
    .error .unsupportedModelKind

/-- C5 counterexample: the claim as stated fails for the lr tag: in
regression mode (classification set to false) determine_model still
returns a LogisticRegression, a classification family, so the
classification-vs-regression mode is not honored for that tag. -/
theorem determine_model_lr_ignores_mode :
    determine_model "lr" false ([] : List (String × ℕ))
        = .ok ⟨.logisticRegression, [], []⟩
      ∧ EstimatorFamily.isClassifier .logisticRegression = true
      ∧ determine_model "lr" false ([] : List (String × ℕ))
        = determine_model "lr" true ([] : List (String × ℕ)) :=
  ⟨rfl, rfl, rfl⟩

/-- C5 (amended): for the tags xgb, knn, cat and lgb the resolver
returns a freshly constructed estimator whose family is a
classification family exactly when the classification flag is set,
with the hyperparameters forwarded verbatim as construction options;
for the tag lr it returns LogisticRegression with the hyperparameters
forwarded verbatim regardless of the mode flag. -/
theorem determine_model_resolves {α : Type} (model : String) (classification : Bool)
    (params : List (String × α)) (h : model ∈ ["xgb", "knn", "cat", "lgb"]) :
    (∃ e : ModelEstimator α, determine_model model classification params = .ok e
        ∧ e.opts = params ∧ e.family.isClassifier = classification)
      ∧ ∃ e : ModelEstimator α, determine_model "lr" classification params = .ok e
        ∧ e.opts = params ∧ e.family = .logisticRegression := by
  constructor
  · simp only [List.mem_cons, List.not_mem_nil, or_false] at h
    rcases h with rfl | rfl | rfl | rfl <;> cases classification <;>
      exact ⟨_, rfl, rfl, rfl⟩
  · exact ⟨⟨.logisticRegression, [], params⟩, rfl, rfl, rfl⟩

/-- C5 witness: the xgb tag in classification mode with a one-entry
hyperparameter dict yields a classifier-family estimator carrying that
dict verbatim, and lr yields LogisticRegression with the same dict. -/
theorem determine_model_resolves_witness :
    ("xgb" ∈ ["xgb", "knn", "cat", "lgb"])
      ∧ ((∃ e : ModelEstimator ℕ, determine_model "xgb" true [("n_estimators", 5)] = .ok e
            ∧ e.opts = [("n_estimators", 5)] ∧ e.family.isClassifier = true)
        ∧ ∃ e : ModelEstimator ℕ, determine_model "lr" true [("n_estimators", 5)] = .ok e
            ∧ e.opts = [("n_estimators", 5)] ∧ e.family = .logisticRegression) :=
  ⟨by decide,
    determine_model_resolves "xgb" true [("n_estimators", 5)] (by decide)⟩
